import Mathlib

/-!
# Verification of `cargo risczero bake` and the `v1compat` bundle

A shallow embedding of `src/risc0/cargo-risczero/src/commands/bake.rs` and
`src/risc0/zkos/v1compat/src/lib.rs`.

Paths are modelled as lists of components (`FilePath`), the filesystem as a
`World` holding a partial map from paths to byte contents together with the
set of existing directories and the trace of builder invocations.  External
capabilities (`risc0_build::build_package`, `std::env::current_dir`, and the
`std::fs` primitives) are collected in an `Env` record; `realEnv` instantiates
the filesystem primitives with their actual semantics on the `World` map and
takes the builder as a pure function.
-/

namespace Bake

/-- Raw file contents: a sequence of bytes. -/
abbrev Bytes := List Nat

/-- A filesystem path, as its list of components. -/
abbrev FsPath := List String

/-- Errors surfaced through `anyhow::Result` in `bake.rs`. -/
inductive BakeErr where
  | builderErr (msg : String)
  | ioErr (msg : String)
deriving DecidableEq, Repr

/-- Outcome of running a fallible piece of the command: normal return,
`anyhow` error, or a panic (from `Option::unwrap`). -/
inductive Outcome (α : Type) where
  | ok (a : α)
  | err (e : BakeErr)
  | panic
deriving DecidableEq, Repr

/-- `Path::parent` in the component model: drop the last component;
`none` for the empty path. -/
def parent (p : FsPath) : Option FsPath :=
  match p with
  | [] => none
  | _ :: _ => some p.dropLast

/-- `Path::file_name` in the component model: the last component, if any. -/
def fileName (p : FsPath) : Option String :=
  p.getLast?

/-- The characters of a file name's stem, per Rust's `split_file_at_dot`:
`".."` is its own stem; otherwise everything before the last `.` that is not
at position 0; the whole name when there is no such dot. -/
def stemChars (cs : List Char) : List Char :=
  if cs = ['.', '.'] then cs
  else if (cs.drop 1).contains '.' then
    cs.take (cs.length - 1 - (cs.drop 1).reverse.indexOf '.')
  else cs

/-- `Path::with_extension` in the component model: rewrite the last
component's extension; a path with no file name is returned unchanged. -/
def withExtension (p : FsPath) (ext : String) : FsPath :=
  match p.getLast? with
  | none => p
  | some f =>
    let stem := stemChars f.data
    let name : String := if ext = "" then ⟨stem⟩ else ⟨stem ++ '.' :: ext.data⟩
    p.dropLast ++ [name]

/-- `q` is an initial segment of `p` (used for `create_dir_all`: every
ancestor of the created directory exists afterwards). -/
def leadsTo : FsPath → FsPath → Bool
  | [], _ => true
  | _ :: _, [] => false
  | a :: as, b :: bs => a = b && leadsTo as bs

/-- `serde_json::Value`, the type of `Package::metadata`. -/
inductive Json where
  | null
  | bool (b : Bool)
  | num (n : Int)
  | str (s : String)
  | arr (xs : List Json)
  | obj (fields : List (String × Json))

/-- `Value::get(key)`: look the key up when the value is an object,
`None` otherwise. -/
def Json.get (j : Json) (key : String) : Option Json :=
  match j with
  | .obj fields => fields.lookup key
  | _ => none

/-- `risc0_zkvm::sha::Digest`: an opaque fixed-length byte string, compared
byte-wise. -/
structure Digest where
  bytes : Bytes
deriving DecidableEq, Repr

/-- `Digest::ZERO`, the 32 zero bytes used as the "not applicable" sentinel. -/
def Digest.ZERO : Digest := ⟨List.replicate 32 0⟩

/-- `Digest::as_bytes`. -/
def Digest.as_bytes (d : Digest) : Bytes := d.bytes

/-- `risc0_build::ImageIdKind`: the versioned identifier, exactly one of the
user-space or kernel-space variants. -/
inductive ImageIdKind where
  | User (d : Digest)
  | Kernel (d : Digest)
deriving DecidableEq, Repr

/-- One build result from `risc0_build::build_package` (`guest.path`,
`guest.image_id`, `guest.v2_image_id`). -/
structure GuestListEntry where
  path : FsPath
  image_id : Digest
  v2_image_id : ImageIdKind
deriving DecidableEq, Repr

/-- `risc0_build::DockerOptions`. -/
structure DockerOptions where
  root_dir : Option FsPath
deriving DecidableEq, Repr

/-- `risc0_build::GuestOptions`. -/
structure GuestOptions where
  features : List String
  use_docker : Option DockerOptions
deriving DecidableEq, Repr

/-- A `cargo_metadata` build target: its name and kind strings. -/
structure CTarget where
  name : String
  kind : List String
deriving DecidableEq, Repr

/-- `cargo_metadata::Target::is_bin`: some kind string equals `"bin"`. -/
def CTarget.is_bin (t : CTarget) : Bool :=
  t.kind.contains "bin"

/-- The slice of `cargo_metadata::Package` that `bake.rs` reads. -/
structure Package where
  name : String
  manifest_path : FsPath
  metadata : Json
  targets : List CTarget

/-- The world state threaded through the run: file contents, existing
directories, and the trace of `build_package` invocations. -/
structure World where
  files : FsPath → Option Bytes
  dirs : FsPath → Bool
  calls : List (Package × FsPath × GuestOptions)

/-- The external capabilities `bake.rs` invokes, each one a state
transformer on `World` that may fail with a `BakeErr`. -/
structure Env where
  current_dir : Except BakeErr FsPath
  build_package : Package → FsPath → GuestOptions → World →
    Except BakeErr (List GuestListEntry) × World
  create_dir_all : FsPath → World → Except BakeErr Unit × World
  copy : FsPath → FsPath → World → Except BakeErr Unit × World
  write : FsPath → Bytes → World → Except BakeErr Unit × World

/-- The body of the `for guest in guests` loop of `BakeCommand::bake_target`
(lines 83–104): compute the source path and file name, copy the binary to
`<elfs_dir>/<file_name>.elf`, write the `.iid` file when the legacy digest is
not `Digest::ZERO`, and write the `.uid` or `.kid` file according to the
identifier variant. -/
def bake_guest (env : Env) (elfs_dir : FsPath) (guest : GuestListEntry)
    (w : World) : Outcome Unit × World :=
  let src_path := guest.path
  match fileName src_path with
  | none => (.panic, w)
  | some file_name =>
    let tgt_path := withExtension (elfs_dir ++ [file_name]) "elf"
    match parent tgt_path with
    | none => (.panic, w)
    | some tgt_parent =>
      match env.create_dir_all tgt_parent w with
      | (.error e, w1) => (.err e, w1)
      | (.ok _, w1) =>
        match env.copy src_path tgt_path w1 with
        | (.error e, w2) => (.err e, w2)
        | (.ok _, w2) =>
          let afterIid : Except BakeErr Unit × World :=
            if guest.image_id ≠ Digest.ZERO then
              env.write (withExtension (elfs_dir ++ [file_name]) "iid")
                guest.image_id.as_bytes w2
            else (.ok (), w2)
          match afterIid with
          | (.error e, w3) => (.err e, w3)
          | (.ok _, w3) =>
            match guest.v2_image_id with
            | .User digest =>
              match env.write (withExtension (elfs_dir ++ [file_name]) "uid")
                  digest.as_bytes w3 with
              | (.error e, w4) => (.err e, w4)
              | (.ok _, w4) => (.ok (), w4)
            | .Kernel digest =>
              match env.write (withExtension (elfs_dir ++ [file_name]) "kid")
                  digest.as_bytes w3 with
              | (.error e, w4) => (.err e, w4)
              | (.ok _, w4) => (.ok (), w4)

/-- The `for guest in guests` loop itself: process the build results in
order, stopping at the first error or panic. -/
def bake_guests (env : Env) (elfs_dir : FsPath) :
    List GuestListEntry → World → Outcome Unit × World
  | [], w => (.ok (), w)
  | g :: gs, w =>
    match bake_guest env elfs_dir g w with
    | (.ok _, w1) => bake_guests env elfs_dir gs w1
    | (.err e, w1) => (.err e, w1)
    | (.panic, w1) => (.panic, w1)

/-- `BakeCommand::bake_target` (lines 60–108): build the Docker options from
the `--docker` flag and the current directory, assemble the `GuestOptions`,
compute the elfs directory — the manifest path's parent, unwrapped, joined
with `"elfs"` — and invoke `risc0_build::build_package`, and process each
resulting guest. -/
def bake_target (env : Env) (docker : Bool) (features : List String)
    (pkg : Package) (target_dir : FsPath) (w : World) : Outcome Unit × World :=
  let use_docker_res : Except BakeErr (Option DockerOptions) :=
    if docker then
      match env.current_dir with
      | .ok cwd => .ok (some ⟨some cwd⟩)
      | .error e => .error e
    else .ok none
  match use_docker_res with
  | .error e => (.err e, w)
  | .ok use_docker =>
    let options : GuestOptions := ⟨features, use_docker⟩
    match parent pkg.manifest_path with
    | none => (.panic, w)
    | some manifest_dir =>
      let elfs_dir := manifest_dir ++ ["elfs"]
      match env.build_package pkg target_dir options w with
      | (.error e, w1) => (.err e, w1)
      | (.ok guests, w1) => bake_guests env elfs_dir guests w1

/-- The eligibility test of `BakeCommand::run` (lines 50–51):
`pkg.metadata.get("risc0")` is `Some` and some target `is_bin()`. -/
def isEligible (pkg : Package) : Bool :=
  (pkg.metadata.get "risc0").isSome && pkg.targets.any (·.is_bin)

/-- The `for pkg in included` loop of `BakeCommand::run` (lines 49–55):
bake each eligible package, silently skipping the others, stopping at the
first error or panic. -/
def runPackages (env : Env) (docker : Bool) (features : List String)
    (target_dir : FsPath) : List Package → World → Outcome Unit × World
  | [], w => (.ok (), w)
  | pkg :: pkgs, w =>
    if isEligible pkg then
      match bake_target env docker features pkg target_dir w with
      | (.ok _, w1) => runPackages env docker features target_dir pkgs w1
      | (.err e, w1) => (.err e, w1)
      | (.panic, w1) => (.panic, w1)
    else
      runPackages env docker features target_dir pkgs w

/-- `BakeCommand::run` after metadata resolution: `target_dir` is
`<workspace target directory>/guest` and the included partition is iterated
in order. -/
def run (env : Env) (docker : Bool) (features : List String)
    (included : List Package) (target_directory : FsPath) (w : World) :
    Outcome Unit × World :=
  runPackages env docker features (target_directory ++ ["guest"]) included w

/-- Overwrite the file map at one path. -/
def World.setFile (w : World) (p : FsPath) (b : Bytes) : World :=
  { w with files := fun q => if q = p then some b else w.files q }

/-- The real semantics of the filesystem primitives used by `bake.rs`,
together with a pure builder function:
`create_dir_all` marks the directory and all its ancestors as existing;
`copy` reads the source file and overwrites the destination, failing when
the source does not exist; `write` overwrites the destination with the
given bytes (whole-file replace); `build_package` records its invocation
and returns what the builder function says. -/
def realEnv (cwd : FsPath)
    (builder : Package → FsPath → GuestOptions →
      Except BakeErr (List GuestListEntry)) : Env where
  current_dir := .ok cwd
  build_package := fun pkg td opts w =>
    (builder pkg td opts, { w with calls := w.calls ++ [(pkg, td, opts)] })
  create_dir_all := fun p w =>
    (.ok (), { w with dirs := fun q => if leadsTo q p then true else w.dirs q })
  copy := fun src tgt w =>
    match w.files src with
    | none => (.error (.ioErr "copy: source does not exist"), w)
    | some b => (.ok (), w.setFile tgt b)
  write := fun p b w => (.ok (), w.setFile p b)

/-- Overwrite a file map at one path: the one-step effect of `std::fs::write`
(and of the write half of `std::fs::copy`) on the file map. -/
def upd (p : FsPath) (b : Bytes) (fs : FsPath → Option Bytes) :
    FsPath → Option Bytes :=
  fun q => if q = p then some b else fs q

/-- The identifier-variant file path chosen by the `match guest.v2_image_id`
(`.uid` for the user-space variant, `.kid` for the kernel-space one). -/
def v2Path (base : FsPath) (g : GuestListEntry) : FsPath :=
  match g.v2_image_id with
  | .User _ => withExtension base "uid"
  | .Kernel _ => withExtension base "kid"

/-- The digest bytes carried by the identifier variant. -/
def v2Bytes (g : GuestListEntry) : Bytes :=
  match g.v2_image_id with
  | .User d => d.as_bytes
  | .Kernel d => d.as_bytes

/-- The exact list of file paths one loop iteration writes for a guest:
the `.elf` copy, the `.iid` file when the legacy digest is non-zero, and the
chosen identifier-variant file. -/
def guestPaths (elfs_dir : FsPath) (g : GuestListEntry) : List FsPath :=
  match fileName g.path with
  | none => []
  | some f =>
    [withExtension (elfs_dir ++ [f]) "elf"]
      ++ (if g.image_id ≠ Digest.ZERO then
            [withExtension (elfs_dir ++ [f]) "iid"]
          else [])
      ++ [v2Path (elfs_dir ++ [f]) g]

/-- All file paths written while processing a guest list. -/
def guestsPaths (elfs_dir : FsPath) (gs : List GuestListEntry) : List FsPath :=
  gs.foldr (fun g acc => guestPaths elfs_dir g ++ acc) []

/-- The `GuestOptions` actually passed to the builder under `realEnv`:
the configured features, plus the Docker descriptor rooted at the current
working directory exactly when `--docker` was given. -/
def realOptions (docker : Bool) (features : List String) (cwd : FsPath) :
    GuestOptions :=
  ⟨features, if docker then some ⟨some cwd⟩ else none⟩

/-- The guest list a pure builder function reports for a package (empty when
the builder fails). -/
def pkgGuests
    (B : Package → FsPath → GuestOptions → Except BakeErr (List GuestListEntry))
    (docker : Bool) (features : List String) (cwd target_dir : FsPath)
    (pkg : Package) : List GuestListEntry :=
  match B pkg target_dir (realOptions docker features cwd) with
  | .ok gs => gs
  | .error _ => []

/-- All file paths `bake_target` writes for one package under `realEnv`. -/
def pkgWritePaths
    (B : Package → FsPath → GuestOptions → Except BakeErr (List GuestListEntry))
    (docker : Bool) (features : List String) (cwd target_dir : FsPath)
    (pkg : Package) : List FsPath :=
  match parent pkg.manifest_path with
  | none => []
  | some mdir =>
    guestsPaths (mdir ++ ["elfs"]) (pkgGuests B docker features cwd target_dir pkg)

/-- The scratch locations `bake_target` reads for one package. -/
def pkgSourcePaths
    (B : Package → FsPath → GuestOptions → Except BakeErr (List GuestListEntry))
    (docker : Bool) (features : List String) (cwd target_dir : FsPath)
    (pkg : Package) : List FsPath :=
  (pkgGuests B docker features cwd target_dir pkg).map (·.path)

/-- All file paths a whole run writes. -/
def runWritePaths
    (B : Package → FsPath → GuestOptions → Except BakeErr (List GuestListEntry))
    (docker : Bool) (features : List String) (cwd target_dir : FsPath)
    (included : List Package) : List FsPath :=
  (included.filter isEligible).foldr
    (fun pkg acc => pkgWritePaths B docker features cwd target_dir pkg ++ acc) []

/-- All scratch locations a whole run reads. -/
def runSourcePaths
    (B : Package → FsPath → GuestOptions → Except BakeErr (List GuestListEntry))
    (docker : Bool) (features : List String) (cwd target_dir : FsPath)
    (included : List Package) : List FsPath :=
  (included.filter isEligible).foldr
    (fun pkg acc => pkgSourcePaths B docker features cwd target_dir pkg ++ acc) []

/-- Example guest entry: scratch binary at `["s"]`, non-zero legacy digest,
kernel-space identifier. -/
def exGuest : GuestListEntry := ⟨["s"], ⟨[1]⟩, .Kernel ⟨[2]⟩⟩

/-- Example guest entry with a user-space identifier and the zero legacy
digest. -/
def exGuestUser : GuestListEntry := ⟨["s"], Digest.ZERO, .User ⟨[3]⟩⟩

/-- Example eligible package. -/
def exPkg : Package :=
  ⟨"a", ["d", "Cargo.toml"], .obj [("risc0", .null)], [⟨"t", ["bin"]⟩]⟩

/-- Example ineligible package (metadata without the annotation). -/
def exPkgNo : Package := ⟨"b", ["d2", "Cargo.toml"], .null, [⟨"t", ["bin"]⟩]⟩

/-- Example builder reporting `exGuest` for every package. -/
def exBuilder :
    Package → FsPath → GuestOptions → Except BakeErr (List GuestListEntry) :=
  fun _ _ _ => .ok [exGuest]

/-- Example builder that always fails. -/
def exBuilderFail :
    Package → FsPath → GuestOptions → Except BakeErr (List GuestListEntry) :=
  fun _ _ _ => .error (.builderErr "toolchain")

/-- Example world: one scratch file at `["s"]`, nothing else. -/
def exWorld : World :=
  ⟨fun q => if q = ["s"] then some [7, 8] else none, fun _ => false, []⟩

/-- Example world with no files at all. -/
def exEmpty : World := ⟨fun _ => none, fun _ => false, []⟩

end Bake

namespace V1Compat

/-- Modelled from the spec: the bundled resource files `elfs/v1compat.elf`
and `elfs/v1compat.kid` referenced by the `include_bytes!` invocations in
`src/risc0/zkos/v1compat/src/lib.rs` are not part of the source tree, so
their byte contents are opaque parameters here.  `exports` gives the pair of
constants `(V1COMPAT_ELF, V1COMPAT_V2_KERNEL_ID)` that the crate compiles in
when `target_os` is not `"zkvm"` (`#[cfg(not(target_os = "zkvm"))]`), and
nothing when the crate is compiled for the zkvm target itself.  Both
constants are compile-time `const` byte slices: in this embedding they are a
pure function of the bundled bytes, with no operation that could reload or
mutate them. -/
def exports (target_os_zkvm : Bool) (elfBytes kernelIdBytes : Bake.Bytes) :
    Option (Bake.Bytes × Bake.Bytes) :=
  if target_os_zkvm then none else some (elfBytes, kernelIdBytes)

end V1Compat

/-! ## Path lemmas -/

namespace Bake

theorem parent_eq_dropLast (p : FsPath) (h : p ≠ []) :
    parent p = some p.dropLast := by
  cases p with
  | nil => exact absurd rfl h
  | cons a as => rfl

theorem parent_concat (d : FsPath) (f : String) :
    parent (d ++ [f]) = some d := by
  rw [parent_eq_dropLast _ (by simp), List.dropLast_concat]

theorem withExtension_concat (d : FsPath) (f : String) (e : String) :
    withExtension (d ++ [f]) e =
      d ++ [if e = "" then (⟨stemChars f.data⟩ : String)
            else ⟨stemChars f.data ++ '.' :: e.data⟩] := by
  simp [withExtension, List.getLast?_concat, List.dropLast_concat]

theorem parent_withExtension_concat (d : FsPath) (f : String) (e : String) :
    parent (withExtension (d ++ [f]) e) = some d := by
  rw [withExtension_concat]
  split <;> exact parent_concat _ _

theorem withExtension_concat_inj (d d' : FsPath) (f f' : String) (e e' : String)
    (he : e ≠ "") (he' : e' ≠ "") (hlen : e.data.length = e'.data.length) :
    withExtension (d ++ [f]) e = withExtension (d' ++ [f']) e' ↔
      d = d' ∧ stemChars f.data = stemChars f'.data ∧ e = e' := by
  rw [withExtension_concat, withExtension_concat, if_neg he, if_neg he']
  constructor
  · intro h
    obtain ⟨hd, hf⟩ := List.append_inj' h (by simp)
    have hchars : stemChars f.data ++ '.' :: e.data
        = stemChars f'.data ++ '.' :: e'.data := by
      have := List.cons.injEq .. ▸ hf
      simpa using congrArg String.data (by simpa using hf)
    obtain ⟨hs, hrest⟩ := List.append_inj' hchars (by simp [hlen])
    refine ⟨hd, hs, String.ext ?_⟩
    simpa using hrest
  · rintro ⟨rfl, hs, rfl⟩
    rw [hs]

theorem upd_same (p : FsPath) (b : Bytes) (fs : FsPath → Option Bytes) :
    upd p b fs p = some b := by
  simp [upd]

theorem upd_other (p q : FsPath) (b : Bytes) (fs : FsPath → Option Bytes)
    (h : q ≠ p) : upd p b fs q = fs q := by
  simp [upd, h]

end Bake

/-! ## `bake_guest` under `realEnv` -/

namespace Bake

theorem bake_guest_real_eq (cwd : FsPath)
    (B : Package → FsPath → GuestOptions → Except BakeErr (List GuestListEntry))
    (elfs_dir : FsPath) (g : GuestListEntry) (w : World) (f : String) (b : Bytes)
    (hf : fileName g.path = some f) (hb : w.files g.path = some b) :
    bake_guest (realEnv cwd B) elfs_dir g w =
      (.ok (), { w with
        dirs := fun q => if leadsTo q elfs_dir then true else w.dirs q
        files :=
          upd (v2Path (elfs_dir ++ [f]) g) (v2Bytes g)
            ((if g.image_id ≠ Digest.ZERO then
                upd (withExtension (elfs_dir ++ [f]) "iid") g.image_id.as_bytes
              else id)
              (upd (withExtension (elfs_dir ++ [f]) "elf") b w.files)) }) := by
  by_cases hz : g.image_id = Digest.ZERO <;>
    cases hv : g.v2_image_id <;>
      (simp [bake_guest, realEnv, hf, hb, parent_withExtension_concat,
        World.setFile, upd, v2Path, v2Bytes, hv, hz]) <;>
      (funext q; simp [upd])

end Bake

namespace Bake

theorem bake_guest_real_panic (cwd : FsPath)
    (B : Package → FsPath → GuestOptions → Except BakeErr (List GuestListEntry))
    (elfs_dir : FsPath) (g : GuestListEntry) (w : World)
    (hf : fileName g.path = none) :
    bake_guest (realEnv cwd B) elfs_dir g w = (.panic, w) := by
  simp [bake_guest, hf]

theorem bake_guest_real_copy_fail (cwd : FsPath)
    (B : Package → FsPath → GuestOptions → Except BakeErr (List GuestListEntry))
    (elfs_dir : FsPath) (g : GuestListEntry) (w : World) (f : String)
    (hf : fileName g.path = some f) (hb : w.files g.path = none) :
    bake_guest (realEnv cwd B) elfs_dir g w =
      (.err (.ioErr "copy: source does not exist"),
       { w with dirs := fun q => if leadsTo q elfs_dir then true else w.dirs q }) := by
  simp [bake_guest, realEnv, hf, hb, parent_withExtension_concat, World.setFile]

theorem bake_guest_real_ok_inv (cwd : FsPath)
    (B : Package → FsPath → GuestOptions → Except BakeErr (List GuestListEntry))
    (elfs_dir : FsPath) (g : GuestListEntry) (w : World)
    (hok : (bake_guest (realEnv cwd B) elfs_dir g w).1 = .ok ()) :
    ∃ f b, fileName g.path = some f ∧ w.files g.path = some b := by
  cases hf : fileName g.path with
  | none =>
    rw [bake_guest_real_panic _ _ _ _ _ hf] at hok
    exact absurd hok (by simp)
  | some f =>
    cases hb : w.files g.path with
    | none =>
      rw [bake_guest_real_copy_fail _ _ _ _ _ _ hf hb] at hok
      exact absurd hok (by simp)
    | some b => exact ⟨f, b, rfl, rfl⟩

theorem bake_guest_real_calls (cwd : FsPath)
    (B : Package → FsPath → GuestOptions → Except BakeErr (List GuestListEntry))
    (elfs_dir : FsPath) (g : GuestListEntry) (w : World) :
    (bake_guest (realEnv cwd B) elfs_dir g w).2.calls = w.calls := by
  cases hf : fileName g.path with
  | none => rw [bake_guest_real_panic _ _ _ _ _ hf]
  | some f =>
    cases hb : w.files g.path with
    | none => rw [bake_guest_real_copy_fail _ _ _ _ _ _ hf hb]
    | some b => rw [bake_guest_real_eq _ _ _ _ _ _ _ hf hb]

end Bake

namespace Bake

theorem withExtension_ne_of_ext_ne (d d' : FsPath) (f f' : String) (e e' : String)
    (he : e ≠ "") (he' : e' ≠ "") (hlen : e.data.length = e'.data.length)
    (hne : e ≠ e') :
    withExtension (d ++ [f]) e ≠ withExtension (d' ++ [f']) e' := by
  rw [Ne, withExtension_concat_inj _ _ _ _ _ _ he he' hlen]
  tauto

theorem bake_guest_real_frame (cwd : FsPath)
    (B : Package → FsPath → GuestOptions → Except BakeErr (List GuestListEntry))
    (elfs_dir : FsPath) (g : GuestListEntry) (w : World) (q : FsPath)
    (hq : q ∉ guestPaths elfs_dir g) :
    (bake_guest (realEnv cwd B) elfs_dir g w).2.files q = w.files q := by
  cases hf : fileName g.path with
  | none => rw [bake_guest_real_panic _ _ _ _ _ hf]
  | some f =>
    cases hb : w.files g.path with
    | none => rw [bake_guest_real_copy_fail _ _ _ _ _ _ hf hb]
    | some b =>
      rw [bake_guest_real_eq _ _ _ _ _ _ _ hf hb]
      simp only [guestPaths, hf, List.mem_append, List.mem_singleton,
        List.mem_cons, List.not_mem_nil] at hq
      push_neg at hq
      by_cases hz : g.image_id = Digest.ZERO <;> simp [hz] at hq <;>
        simp [upd, hz, hq]

theorem bake_guest_real_sim (cwd : FsPath)
    (B : Package → FsPath → GuestOptions → Except BakeErr (List GuestListEntry))
    (elfs_dir : FsPath) (g : GuestListEntry) (w X : World)
    (hsrc : X.files g.path = w.files g.path)
    (hok : (bake_guest (realEnv cwd B) elfs_dir g w).1 = .ok ()) :
    (bake_guest (realEnv cwd B) elfs_dir g X).1 = .ok () ∧
    ∀ q, (q ∈ guestPaths elfs_dir g →
            (bake_guest (realEnv cwd B) elfs_dir g X).2.files q =
              (bake_guest (realEnv cwd B) elfs_dir g w).2.files q) ∧
         (q ∉ guestPaths elfs_dir g →
            (bake_guest (realEnv cwd B) elfs_dir g X).2.files q = X.files q) := by
  obtain ⟨f, b, hf, hb⟩ := bake_guest_real_ok_inv _ _ _ _ _ hok
  have hbX : X.files g.path = some b := hsrc.trans hb
  rw [bake_guest_real_eq _ _ _ _ _ _ _ hf hb, bake_guest_real_eq _ _ _ _ _ _ _ hf hbX]
  refine ⟨rfl, fun q => ⟨fun hq => ?_, fun hq => ?_⟩⟩
  · by_cases h2 : q = v2Path (elfs_dir ++ [f]) g <;>
      by_cases h1 : q = withExtension (elfs_dir ++ [f]) "iid" <;>
      by_cases h0 : q = withExtension (elfs_dir ++ [f]) "elf" <;>
      by_cases hz : g.image_id = Digest.ZERO <;>
      simp only [guestPaths, hf, List.mem_append, List.mem_singleton,
        List.mem_cons, List.not_mem_nil, hz] at hq <;>
      simp_all [upd, hz]
  · simp only [guestPaths, hf, List.mem_append, List.mem_singleton,
      List.mem_cons, List.not_mem_nil] at hq
    push_neg at hq
    by_cases hz : g.image_id = Digest.ZERO <;> simp [hz] at hq <;>
      simp [upd, hz, hq]

end Bake

namespace Bake

theorem bake_guests_cons (env : Env) (e : FsPath) (g : GuestListEntry)
    (gs : List GuestListEntry) (w : World) :
    bake_guests env e (g :: gs) w =
      match bake_guest env e g w with
      | (.ok _, w1) => bake_guests env e gs w1
      | (.err er, w1) => (.err er, w1)
      | (.panic, w1) => (.panic, w1) := rfl

theorem guestsPaths_nil (e : FsPath) : guestsPaths e [] = [] := rfl

theorem guestsPaths_cons (e : FsPath) (g : GuestListEntry)
    (gs : List GuestListEntry) :
    guestsPaths e (g :: gs) = guestPaths e g ++ guestsPaths e gs := rfl

theorem bake_guests_real_calls (cwd : FsPath)
    (B : Package → FsPath → GuestOptions → Except BakeErr (List GuestListEntry))
    (elfs_dir : FsPath) (gs : List GuestListEntry) (w : World) :
    (bake_guests (realEnv cwd B) elfs_dir gs w).2.calls = w.calls := by
  induction gs generalizing w with
  | nil => rfl
  | cons g gs ih =>
    rw [bake_guests_cons]
    cases h : bake_guest (realEnv cwd B) elfs_dir g w with
    | mk o w1 =>
      have hc : w1.calls = w.calls := by
        have h' := bake_guest_real_calls cwd B elfs_dir g w
        rw [h] at h'
        exact h'
      cases o with
      | ok a => exact (ih w1).trans hc
      | err e => exact hc
      | panic => exact hc

theorem bake_guests_real_frame (cwd : FsPath)
    (B : Package → FsPath → GuestOptions → Except BakeErr (List GuestListEntry))
    (elfs_dir : FsPath) (gs : List GuestListEntry) (w : World) (q : FsPath)
    (hq : q ∉ guestsPaths elfs_dir gs) :
    (bake_guests (realEnv cwd B) elfs_dir gs w).2.files q = w.files q := by
  induction gs generalizing w with
  | nil => rfl
  | cons g gs ih =>
    rw [guestsPaths_cons, List.mem_append] at hq
    push_neg at hq
    rw [bake_guests_cons]
    cases h : bake_guest (realEnv cwd B) elfs_dir g w with
    | mk o w1 =>
      have hfr : w1.files q = w.files q := by
        have h' := bake_guest_real_frame cwd B elfs_dir g w q hq.1
        rw [h] at h'
        exact h'
      cases o with
      | ok a => exact (ih w1 hq.2).trans hfr
      | err e => exact hfr
      | panic => exact hfr

theorem bake_guests_real_sim (cwd : FsPath)
    (B : Package → FsPath → GuestOptions → Except BakeErr (List GuestListEntry))
    (elfs_dir : FsPath) (gs : List GuestListEntry) :
    ∀ (w X : World),
    (∀ g ∈ gs, g.path ∉ guestsPaths elfs_dir gs) →
    (∀ g ∈ gs, X.files g.path = w.files g.path) →
    (bake_guests (realEnv cwd B) elfs_dir gs w).1 = .ok () →
    (bake_guests (realEnv cwd B) elfs_dir gs X).1 = .ok () ∧
    ∀ q, (q ∈ guestsPaths elfs_dir gs →
            (bake_guests (realEnv cwd B) elfs_dir gs X).2.files q =
              (bake_guests (realEnv cwd B) elfs_dir gs w).2.files q) ∧
         (q ∉ guestsPaths elfs_dir gs →
            (bake_guests (realEnv cwd B) elfs_dir gs X).2.files q = X.files q) := by
  induction gs with
  | nil =>
    intro w X _ _ _
    exact ⟨rfl, fun q => ⟨fun hq => absurd hq (by simp [guestsPaths_nil]), fun _ => rfl⟩⟩
  | cons g gs ih =>
    intro w X hdisj hagree hok
    rw [bake_guests_cons] at hok
    cases h : bake_guest (realEnv cwd B) elfs_dir g w with
    | mk o w1 =>
      rw [h] at hok
      cases o with
      | err e => exact absurd hok (by simp)
      | panic => exact absurd hok (by simp)
      | ok a =>
        have h1 : (bake_guest (realEnv cwd B) elfs_dir g w).1 = .ok () := by
          rw [h]
        obtain ⟨hXok, hXq⟩ :=
          bake_guest_real_sim cwd B elfs_dir g w X (hagree g (by simp)) h1
        cases hX : bake_guest (realEnv cwd B) elfs_dir g X with
        | mk oX X1 =>
          rw [hX] at hXok hXq
          cases oX with
          | err e => exact absurd hXok (by simp)
          | panic => exact absurd hXok (by simp)
          | ok aX =>
            have hdisj' : ∀ g' ∈ gs, g'.path ∉ guestsPaths elfs_dir gs := by
              intro g' hg' hmem
              exact hdisj g' (by simp [hg'])
                (by rw [guestsPaths_cons, List.mem_append]; exact Or.inr hmem)
            have hfr1 : ∀ q, q ∉ guestPaths elfs_dir g → w1.files q = w.files q := by
              intro q hq
              have h' := bake_guest_real_frame cwd B elfs_dir g w q hq
              rw [h] at h'
              exact h'
            have hagree' : ∀ g' ∈ gs, X1.files g'.path = w1.files g'.path := by
              intro g' hg'
              have hnot : g'.path ∉ guestsPaths elfs_dir (g :: gs) :=
                hdisj g' (by simp [hg'])
              rw [guestsPaths_cons, List.mem_append] at hnot
              push_neg at hnot
              rw [(hXq g'.path).2 hnot.1, hfr1 g'.path hnot.1]
              exact hagree g' (by simp [hg'])
            obtain ⟨hok2X, hq2⟩ := ih w1 X1 hdisj' hagree' hok
            rw [bake_guests_cons, hX]
            refine ⟨hok2X, fun q => ⟨fun hq => ?_, fun hq => ?_⟩⟩
            · rw [guestsPaths_cons, List.mem_append] at hq
              by_cases hqs : q ∈ guestsPaths elfs_dir gs
              · rw [bake_guests_cons, h]
                exact (hq2 q).1 hqs
              · have hqg : q ∈ guestPaths elfs_dir g := by
                  rcases hq with hq | hq
                  · exact hq
                  · exact absurd hq hqs
                rw [bake_guests_cons, h]
                rw [(hq2 q).2 hqs, (hXq q).1 hqg, h,
                  bake_guests_real_frame cwd B elfs_dir gs w1 q hqs]
            · rw [guestsPaths_cons, List.mem_append] at hq
              push_neg at hq
              rw [(hq2 q).2 hq.2, (hXq q).2 hq.1]

end Bake

/-! ## `bake_target` under `realEnv` -/

namespace Bake

theorem bake_target_panic_of_no_parent (env : Env) (docker : Bool)
    (feats : List String) (pkg : Package) (td : FsPath) (w : World)
    (hp : parent pkg.manifest_path = none)
    (hcd : docker = false ∨ ∃ c, env.current_dir = .ok c) :
    bake_target env docker feats pkg td w = (.panic, w) := by
  rcases hcd with hcd | ⟨c, hcd⟩
  · simp [bake_target, hcd, hp]
  · cases docker <;> simp [bake_target, hcd, hp]

theorem bake_target_real_ok_builder (cwd : FsPath)
    (B : Package → FsPath → GuestOptions → Except BakeErr (List GuestListEntry))
    (docker : Bool) (feats : List String) (pkg : Package) (td : FsPath)
    (w : World) (mdir : FsPath) (gs : List GuestListEntry)
    (hp : parent pkg.manifest_path = some mdir)
    (hB : B pkg td (realOptions docker feats cwd) = .ok gs) :
    bake_target (realEnv cwd B) docker feats pkg td w =
      bake_guests (realEnv cwd B) (mdir ++ ["elfs"]) gs
        { w with calls := w.calls ++ [(pkg, td, realOptions docker feats cwd)] } := by
  cases docker <;>
    simp [bake_target, realEnv, realOptions, hp] <;>
    simp [realOptions] at hB <;>
    simp [hB]

theorem bake_target_real_err_builder (cwd : FsPath)
    (B : Package → FsPath → GuestOptions → Except BakeErr (List GuestListEntry))
    (docker : Bool) (feats : List String) (pkg : Package) (td : FsPath)
    (w : World) (mdir : FsPath) (e : BakeErr)
    (hp : parent pkg.manifest_path = some mdir)
    (hB : B pkg td (realOptions docker feats cwd) = .error e) :
    bake_target (realEnv cwd B) docker feats pkg td w =
      (.err e,
       { w with calls := w.calls ++ [(pkg, td, realOptions docker feats cwd)] }) := by
  cases docker <;>
    simp [bake_target, realEnv, realOptions, hp] <;>
    simp [realOptions] at hB <;>
    simp [hB]

theorem bake_target_real_calls (cwd : FsPath)
    (B : Package → FsPath → GuestOptions → Except BakeErr (List GuestListEntry))
    (docker : Bool) (feats : List String) (pkg : Package) (td : FsPath)
    (w : World) (mdir : FsPath)
    (hp : parent pkg.manifest_path = some mdir) :
    (bake_target (realEnv cwd B) docker feats pkg td w).2.calls =
      w.calls ++ [(pkg, td, realOptions docker feats cwd)] := by
  cases hB : B pkg td (realOptions docker feats cwd) with
  | error e => rw [bake_target_real_err_builder _ _ _ _ _ _ _ _ _ hp hB]
  | ok gs =>
    rw [bake_target_real_ok_builder _ _ _ _ _ _ _ _ _ hp hB,
      bake_guests_real_calls]

theorem bake_target_real_ok_inv (cwd : FsPath)
    (B : Package → FsPath → GuestOptions → Except BakeErr (List GuestListEntry))
    (docker : Bool) (feats : List String) (pkg : Package) (td : FsPath)
    (w : World)
    (hok : (bake_target (realEnv cwd B) docker feats pkg td w).1 = .ok ()) :
    ∃ mdir, parent pkg.manifest_path = some mdir ∧
      B pkg td (realOptions docker feats cwd) =
        .ok (pkgGuests B docker feats cwd td pkg) := by
  cases hp : parent pkg.manifest_path with
  | none =>
    rw [bake_target_panic_of_no_parent _ _ _ _ _ _ hp (Or.inr ⟨cwd, rfl⟩)] at hok
    exact absurd hok (by simp)
  | some mdir =>
    cases hB : B pkg td (realOptions docker feats cwd) with
    | error e =>
      rw [bake_target_real_err_builder _ _ _ _ _ _ _ _ _ hp hB] at hok
      exact absurd hok (by simp)
    | ok gs =>
      refine ⟨mdir, rfl, ?_⟩
      simp [pkgGuests, hB]

theorem bake_target_real_frame (cwd : FsPath)
    (B : Package → FsPath → GuestOptions → Except BakeErr (List GuestListEntry))
    (docker : Bool) (feats : List String) (pkg : Package) (td : FsPath)
    (w : World) (q : FsPath)
    (hq : q ∉ pkgWritePaths B docker feats cwd td pkg) :
    (bake_target (realEnv cwd B) docker feats pkg td w).2.files q = w.files q := by
  cases hp : parent pkg.manifest_path with
  | none => rw [bake_target_panic_of_no_parent _ _ _ _ _ _ hp (Or.inr ⟨cwd, rfl⟩)]
  | some mdir =>
    cases hB : B pkg td (realOptions docker feats cwd) with
    | error e => rw [bake_target_real_err_builder _ _ _ _ _ _ _ _ _ hp hB]
    | ok gs =>
      rw [bake_target_real_ok_builder _ _ _ _ _ _ _ _ _ hp hB]
      apply bake_guests_real_frame
      rw [pkgWritePaths, hp] at hq
      have hgs : pkgGuests B docker feats cwd td pkg = gs := by
        rw [pkgGuests, hB]
      rw [hgs] at hq
      exact hq

theorem bake_target_real_sim (cwd : FsPath)
    (B : Package → FsPath → GuestOptions → Except BakeErr (List GuestListEntry))
    (docker : Bool) (feats : List String) (pkg : Package) (td : FsPath)
    (w X : World)
    (hdisj : ∀ g ∈ pkgGuests B docker feats cwd td pkg,
      g.path ∉ pkgWritePaths B docker feats cwd td pkg)
    (hagree : ∀ g ∈ pkgGuests B docker feats cwd td pkg,
      X.files g.path = w.files g.path)
    (hok : (bake_target (realEnv cwd B) docker feats pkg td w).1 = .ok ()) :
    (bake_target (realEnv cwd B) docker feats pkg td X).1 = .ok () ∧
    ∀ q, (q ∈ pkgWritePaths B docker feats cwd td pkg →
            (bake_target (realEnv cwd B) docker feats pkg td X).2.files q =
              (bake_target (realEnv cwd B) docker feats pkg td w).2.files q) ∧
         (q ∉ pkgWritePaths B docker feats cwd td pkg →
            (bake_target (realEnv cwd B) docker feats pkg td X).2.files q =
              X.files q) := by
  obtain ⟨mdir, hp, hB⟩ := bake_target_real_ok_inv _ _ _ _ _ _ _ hok
  rw [bake_target_real_ok_builder _ _ _ _ _ _ _ _ _ hp hB] at hok ⊢
  rw [bake_target_real_ok_builder _ _ _ _ _ _ _ _ _ hp hB]
  have hpaths : pkgWritePaths B docker feats cwd td pkg =
      guestsPaths (mdir ++ ["elfs"]) (pkgGuests B docker feats cwd td pkg) := by
    rw [pkgWritePaths, hp]
  rw [hpaths] at hdisj ⊢
  exact bake_guests_real_sim cwd B (mdir ++ ["elfs"])
    (pkgGuests B docker feats cwd td pkg) _ _ hdisj hagree hok

end Bake

/-! ## `runPackages` under `realEnv` -/

namespace Bake

theorem runPackages_cons (env : Env) (docker : Bool) (feats : List String)
    (td : FsPath) (pkg : Package) (pkgs : List Package) (w : World) :
    runPackages env docker feats td (pkg :: pkgs) w =
      if isEligible pkg then
        match bake_target env docker feats pkg td w with
        | (.ok _, w1) => runPackages env docker feats td pkgs w1
        | (.err e, w1) => (.err e, w1)
        | (.panic, w1) => (.panic, w1)
      else runPackages env docker feats td pkgs w := rfl

theorem runPackages_skip (env : Env) (docker : Bool) (feats : List String)
    (td : FsPath) (pkg : Package) (pkgs : List Package) (w : World)
    (h : isEligible pkg = false) :
    runPackages env docker feats td (pkg :: pkgs) w =
      runPackages env docker feats td pkgs w := by
  rw [runPackages_cons, if_neg (by simp [h])]

theorem runWritePaths_cons_eligible
    (B : Package → FsPath → GuestOptions → Except BakeErr (List GuestListEntry))
    (docker : Bool) (feats : List String) (cwd td : FsPath) (pkg : Package)
    (pkgs : List Package) (h : isEligible pkg = true) :
    runWritePaths B docker feats cwd td (pkg :: pkgs) =
      pkgWritePaths B docker feats cwd td pkg ++
        runWritePaths B docker feats cwd td pkgs := by
  simp [runWritePaths, List.filter_cons, h]

theorem runWritePaths_cons_skip
    (B : Package → FsPath → GuestOptions → Except BakeErr (List GuestListEntry))
    (docker : Bool) (feats : List String) (cwd td : FsPath) (pkg : Package)
    (pkgs : List Package) (h : isEligible pkg = false) :
    runWritePaths B docker feats cwd td (pkg :: pkgs) =
      runWritePaths B docker feats cwd td pkgs := by
  simp [runWritePaths, List.filter_cons, h]

theorem runSourcePaths_cons_eligible
    (B : Package → FsPath → GuestOptions → Except BakeErr (List GuestListEntry))
    (docker : Bool) (feats : List String) (cwd td : FsPath) (pkg : Package)
    (pkgs : List Package) (h : isEligible pkg = true) :
    runSourcePaths B docker feats cwd td (pkg :: pkgs) =
      pkgSourcePaths B docker feats cwd td pkg ++
        runSourcePaths B docker feats cwd td pkgs := by
  simp [runSourcePaths, List.filter_cons, h]

theorem runSourcePaths_cons_skip
    (B : Package → FsPath → GuestOptions → Except BakeErr (List GuestListEntry))
    (docker : Bool) (feats : List String) (cwd td : FsPath) (pkg : Package)
    (pkgs : List Package) (h : isEligible pkg = false) :
    runSourcePaths B docker feats cwd td (pkg :: pkgs) =
      runSourcePaths B docker feats cwd td pkgs := by
  simp [runSourcePaths, List.filter_cons, h]

theorem runPackages_real_calls (cwd : FsPath)
    (B : Package → FsPath → GuestOptions → Except BakeErr (List GuestListEntry))
    (docker : Bool) (feats : List String) (td : FsPath) (pkgs : List Package) :
    ∀ w : World,
    (runPackages (realEnv cwd B) docker feats td pkgs w).1 = .ok () →
    (runPackages (realEnv cwd B) docker feats td pkgs w).2.calls =
      w.calls ++ (pkgs.filter isEligible).map
        (fun pkg => (pkg, td, realOptions docker feats cwd)) := by
  induction pkgs with
  | nil => intro w _; simp [runPackages]
  | cons pkg pkgs ih =>
    intro w hok
    by_cases he : isEligible pkg
    · rw [runPackages_cons, if_pos he] at hok ⊢
      cases h : bake_target (realEnv cwd B) docker feats pkg td w with
      | mk o w1 =>
        rw [h] at hok
        cases o with
        | err e => exact absurd hok (by simp)
        | panic => exact absurd hok (by simp)
        | ok a =>
          have h1 : (bake_target (realEnv cwd B) docker feats pkg td w).1 = .ok () := by
            rw [h]
          obtain ⟨mdir, hp, _⟩ := bake_target_real_ok_inv _ _ _ _ _ _ _ h1
          have hc : w1.calls =
              w.calls ++ [(pkg, td, realOptions docker feats cwd)] := by
            have h2 := bake_target_real_calls cwd B docker feats pkg td w mdir hp
            rw [h] at h2
            exact h2
          rw [ih w1 hok, hc, List.filter_cons_of_pos he, List.map_cons,
            List.append_assoc]
          rfl
    · rw [runPackages_skip _ _ _ _ _ _ _ (by simpa using he)] at hok ⊢
      rw [ih w hok, List.filter_cons_of_neg he]

theorem runPackages_real_frame (cwd : FsPath)
    (B : Package → FsPath → GuestOptions → Except BakeErr (List GuestListEntry))
    (docker : Bool) (feats : List String) (td : FsPath) (pkgs : List Package)
    (q : FsPath) :
    ∀ w : World,
    q ∉ runWritePaths B docker feats cwd td pkgs →
    (runPackages (realEnv cwd B) docker feats td pkgs w).2.files q = w.files q := by
  induction pkgs with
  | nil => intro w _; rfl
  | cons pkg pkgs ih =>
    intro w hq
    by_cases he : isEligible pkg
    · rw [runWritePaths_cons_eligible _ _ _ _ _ _ _ he, List.mem_append] at hq
      push_neg at hq
      rw [runPackages_cons, if_pos he]
      cases h : bake_target (realEnv cwd B) docker feats pkg td w with
      | mk o w1 =>
        have hfr : w1.files q = w.files q := by
          have h' := bake_target_real_frame cwd B docker feats pkg td w q hq.1
          rw [h] at h'
          exact h'
        cases o with
        | ok a => exact (ih w1 hq.2).trans hfr
        | err e => exact hfr
        | panic => exact hfr
    · rw [runWritePaths_cons_skip _ _ _ _ _ _ _ (by simpa using he)] at hq
      rw [runPackages_skip _ _ _ _ _ _ _ (by simpa using he)]
      exact ih w hq

end Bake

namespace Bake

theorem runPackages_real_sim (cwd : FsPath)
    (B : Package → FsPath → GuestOptions → Except BakeErr (List GuestListEntry))
    (docker : Bool) (feats : List String) (td : FsPath) (pkgs : List Package) :
    ∀ (w X : World),
    (∀ p ∈ runSourcePaths B docker feats cwd td pkgs,
        p ∉ runWritePaths B docker feats cwd td pkgs) →
    (∀ p ∈ runSourcePaths B docker feats cwd td pkgs, X.files p = w.files p) →
    (runPackages (realEnv cwd B) docker feats td pkgs w).1 = .ok () →
    (runPackages (realEnv cwd B) docker feats td pkgs X).1 = .ok () ∧
    ∀ q, (q ∈ runWritePaths B docker feats cwd td pkgs →
            (runPackages (realEnv cwd B) docker feats td pkgs X).2.files q =
              (runPackages (realEnv cwd B) docker feats td pkgs w).2.files q) ∧
         (q ∉ runWritePaths B docker feats cwd td pkgs →
            (runPackages (realEnv cwd B) docker feats td pkgs X).2.files q =
              X.files q) := by
  induction pkgs with
  | nil =>
    intro w X _ _ _
    exact ⟨rfl, fun q =>
      ⟨fun hq => absurd hq (by simp [runWritePaths]), fun _ => rfl⟩⟩
  | cons pkg pkgs ih =>
    intro w X hdisj hagree hok
    by_cases he : isEligible pkg
    · rw [runPackages_cons, if_pos he] at hok
      cases h : bake_target (realEnv cwd B) docker feats pkg td w with
      | mk o w1 =>
        rw [h] at hok
        cases o with
        | err e => exact absurd hok (by simp)
        | panic => exact absurd hok (by simp)
        | ok a =>
          have h1 : (bake_target (realEnv cwd B) docker feats pkg td w).1
              = .ok () := by rw [h]
          have hdisjP : ∀ g ∈ pkgGuests B docker feats cwd td pkg,
              g.path ∉ pkgWritePaths B docker feats cwd td pkg := by
            intro g hg hmem
            have hsrc : g.path ∈ pkgSourcePaths B docker feats cwd td pkg :=
              List.mem_map.mpr ⟨g, hg, rfl⟩
            have h2 := hdisj g.path
              (by rw [runSourcePaths_cons_eligible _ _ _ _ _ _ _ he]
                  exact List.mem_append_left _ hsrc)
            rw [runWritePaths_cons_eligible _ _ _ _ _ _ _ he,
              List.mem_append] at h2
            push_neg at h2
            exact h2.1 hmem
          have hagreeP : ∀ g ∈ pkgGuests B docker feats cwd td pkg,
              X.files g.path = w.files g.path := by
            intro g hg
            exact hagree g.path
              (by rw [runSourcePaths_cons_eligible _ _ _ _ _ _ _ he]
                  exact List.mem_append_left _ (List.mem_map.mpr ⟨g, hg, rfl⟩))
          obtain ⟨hXok1, hXq⟩ :=
            bake_target_real_sim cwd B docker feats pkg td w X hdisjP hagreeP h1
          cases hX : bake_target (realEnv cwd B) docker feats pkg td X with
          | mk oX X1 =>
            rw [hX] at hXok1 hXq
            cases oX with
            | err e => exact absurd hXok1 (by simp)
            | panic => exact absurd hXok1 (by simp)
            | ok aX =>
              have hfr1 : ∀ q, q ∉ pkgWritePaths B docker feats cwd td pkg →
                  w1.files q = w.files q := by
                intro q hq
                have h' := bake_target_real_frame cwd B docker feats pkg td w q hq
                rw [h] at h'
                exact h'
              have hdisj' : ∀ p ∈ runSourcePaths B docker feats cwd td pkgs,
                  p ∉ runWritePaths B docker feats cwd td pkgs := by
                intro p hp hmem
                have h2 := hdisj p
                  (by rw [runSourcePaths_cons_eligible _ _ _ _ _ _ _ he]
                      exact List.mem_append_right _ hp)
                rw [runWritePaths_cons_eligible _ _ _ _ _ _ _ he,
                  List.mem_append] at h2
                push_neg at h2
                exact h2.2 hmem
              have hagree' : ∀ p ∈ runSourcePaths B docker feats cwd td pkgs,
                  X1.files p = w1.files p := by
                intro p hp
                have hnot := hdisj p
                  (by rw [runSourcePaths_cons_eligible _ _ _ _ _ _ _ he]
                      exact List.mem_append_right _ hp)
                rw [runWritePaths_cons_eligible _ _ _ _ _ _ _ he,
                  List.mem_append] at hnot
                push_neg at hnot
                rw [(hXq p).2 hnot.1, hfr1 p hnot.1]
                exact hagree p
                  (by rw [runSourcePaths_cons_eligible _ _ _ _ _ _ _ he]
                      exact List.mem_append_right _ hp)
              obtain ⟨hok2X, hq2⟩ := ih w1 X1 hdisj' hagree' hok
              rw [runPackages_cons (realEnv cwd B) docker feats td pkg pkgs X,
                if_pos he, hX,
                runPackages_cons (realEnv cwd B) docker feats td pkg pkgs w,
                if_pos he, h]
              refine ⟨hok2X, fun q => ⟨fun hq => ?_, fun hq => ?_⟩⟩
              · rw [runWritePaths_cons_eligible _ _ _ _ _ _ _ he,
                  List.mem_append] at hq
                by_cases hqs : q ∈ runWritePaths B docker feats cwd td pkgs
                · exact (hq2 q).1 hqs
                · have hqg : q ∈ pkgWritePaths B docker feats cwd td pkg := by
                    rcases hq with hq | hq
                    · exact hq
                    · exact absurd hq hqs
                  show (runPackages (realEnv cwd B) docker feats td pkgs X1).2.files q =
                    (runPackages (realEnv cwd B) docker feats td pkgs w1).2.files q
                  rw [(hq2 q).2 hqs, (hXq q).1 hqg, h,
                    runPackages_real_frame cwd B docker feats td pkgs q w1 hqs]
              · rw [runWritePaths_cons_eligible _ _ _ _ _ _ _ he,
                  List.mem_append] at hq
                push_neg at hq
                show (runPackages (realEnv cwd B) docker feats td pkgs X1).2.files q =
                  X.files q
                rw [(hq2 q).2 hq.2, (hXq q).2 hq.1]
    · have he' : isEligible pkg = false := by simpa using he
      rw [runPackages_skip _ _ _ _ _ _ _ he'] at hok
      rw [runSourcePaths_cons_skip _ _ _ _ _ _ _ he'] at hdisj hagree
      have hdisj2 : ∀ p ∈ runSourcePaths B docker feats cwd td pkgs,
          p ∉ runWritePaths B docker feats cwd td pkgs := by
        intro p hp
        have := hdisj p hp
        rw [runWritePaths_cons_skip _ _ _ _ _ _ _ he'] at this
        exact this
      obtain ⟨hokX, hq2⟩ := ih w X hdisj2 hagree hok
      rw [runPackages_skip _ _ _ _ _ _ _ he',
        runPackages_skip _ _ _ _ _ _ _ he']
      refine ⟨hokX, fun q => ⟨fun hq => ?_, fun hq => ?_⟩⟩
      · rw [runWritePaths_cons_skip _ _ _ _ _ _ _ he'] at hq
        exact (hq2 q).1 hq
      · rw [runWritePaths_cons_skip _ _ _ _ _ _ _ he'] at hq
        exact (hq2 q).2 hq

end Bake

/-! ## Claims -/

namespace Bake

/-- C10: the eligibility check inspects only the presence of the `"risc0"`
key in a package's metadata, never its value: any value under that key
(null, false, an empty object, …) makes a package with a binary target
eligible, and replacing the value changes nothing. -/
theorem eligibility_ignores_metadata_value (name : String) (mp : FsPath)
    (ts : List CTarget) (v v' : Json) (rest : List (String × Json))
    (hbin : ts.any CTarget.is_bin = true) :
    isEligible ⟨name, mp, .obj (("risc0", v) :: rest), ts⟩ = true ∧
    isEligible ⟨name, mp, .obj (("risc0", v) :: rest), ts⟩ =
      isEligible ⟨name, mp, .obj (("risc0", v') :: rest), ts⟩ := by
  constructor <;> simp [isEligible, Json.get, List.lookup, hbin]

/-- Witness for C10 at a concrete input (`null` and `false` values). -/
theorem eligibility_ignores_metadata_value_witness :
    ([(⟨"t", ["bin"]⟩ : CTarget)].any CTarget.is_bin = true) ∧
    (isEligible ⟨"p", ["Cargo.toml"], .obj [("risc0", .null)], [⟨"t", ["bin"]⟩]⟩
        = true ∧
      isEligible ⟨"p", ["Cargo.toml"], .obj [("risc0", .null)], [⟨"t", ["bin"]⟩]⟩
        = isEligible ⟨"p", ["Cargo.toml"], .obj [("risc0", .bool false)],
            [⟨"t", ["bin"]⟩]⟩) :=
  ⟨rfl, eligibility_ignores_metadata_value "p" ["Cargo.toml"] [⟨"t", ["bin"]⟩]
    .null (.bool false) [] rfl⟩

/-- C1: during the package loop, the Builder is invoked exactly once for each
included package carrying the `"risc0"` metadata key and a binary target, in
order (first conjunct: on a successful run the trace of `build_package`
invocations is exactly the eligible sublist); a package failing either
condition is skipped silently: the loop state is untouched and no error can
arise from the skip (second conjunct). -/
theorem builder_invoked_iff_eligible (cwd : FsPath)
    (B : Package → FsPath → GuestOptions → Except BakeErr (List GuestListEntry))
    (docker : Bool) (feats : List String) (included : List Package)
    (tdir : FsPath) :
    (∀ w : World,
      (run (realEnv cwd B) docker feats included tdir w).1 = .ok () →
      (run (realEnv cwd B) docker feats included tdir w).2.calls =
        w.calls ++ (included.filter isEligible).map
          (fun pkg => (pkg, tdir ++ ["guest"], realOptions docker feats cwd))) ∧
    (∀ (env : Env) (pkg : Package) (pkgs : List Package) (w : World),
      isEligible pkg = false →
      runPackages env docker feats (tdir ++ ["guest"]) (pkg :: pkgs) w =
        runPackages env docker feats (tdir ++ ["guest"]) pkgs w) := by
  constructor
  · intro w hok
    exact runPackages_real_calls cwd B docker feats (tdir ++ ["guest"])
      included w hok
  · intro env pkg pkgs w hskip
    exact runPackages_skip env docker feats (tdir ++ ["guest"]) pkg pkgs w hskip

/-- Witness for C1: a two-package workspace, one eligible and one not; the
run succeeds, the builder is invoked exactly for the eligible one, and the
ineligible one is skipped with no effect. -/
theorem builder_invoked_iff_eligible_witness :
    ((run (realEnv [] exBuilder) false [] [exPkg, exPkgNo] [] exWorld).1
        = .ok ()) ∧
    isEligible exPkgNo = false ∧
    ((run (realEnv [] exBuilder) false [] [exPkg, exPkgNo] [] exWorld).2.calls =
      exWorld.calls ++ ([exPkg, exPkgNo].filter isEligible).map
        (fun pkg => (pkg, ([] : FsPath) ++ ["guest"], realOptions false [] []))) ∧
    (runPackages (realEnv [] exBuilder) false [] (([] : FsPath) ++ ["guest"])
        (exPkgNo :: []) exWorld =
      runPackages (realEnv [] exBuilder) false [] (([] : FsPath) ++ ["guest"])
        [] exWorld) :=
  ⟨rfl, rfl,
    (builder_invoked_iff_eligible [] exBuilder false [] [exPkg, exPkgNo] []).1
      exWorld rfl,
    (builder_invoked_iff_eligible [] exBuilder false [] [exPkg, exPkgNo] []).2
      (realEnv [] exBuilder) exPkgNo [] exWorld rfl⟩

end Bake

/-- C8: the v1compat crate exposes exactly two byte buffers — the precompiled
binary image and its precomputed kernel-space identifier — as a fixed pair
determined by the bundled resources; the pair is present exactly when the
crate is not compiled for the zkvm target, and absent inside it. -/
theorem v1compat_buffers (z : Bool) (e k : Bake.Bytes) :
    V1Compat.exports true e k = none ∧
    (V1Compat.exports z e k = some (e, k) ↔ z = false) := by
  refine ⟨rfl, ?_⟩
  cases z <;> simp [V1Compat.exports]

namespace Bake

/-- C2: for every guest processed successfully by the loop body, exactly one
of the two identifier-variant files is written — the `.uid` sibling when the
versioned identifier is the user-space variant, the `.kid` sibling when it is
the kernel-space variant — its contents are the raw bytes of the digest
carried by that variant, and the other variant's file is left untouched. -/
theorem identifier_variant_file (cwd : FsPath)
    (B : Package → FsPath → GuestOptions → Except BakeErr (List GuestListEntry))
    (elfs_dir : FsPath) (g : GuestListEntry) (w : World) (f : String)
    (hf : fileName g.path = some f)
    (hok : (bake_guest (realEnv cwd B) elfs_dir g w).1 = .ok ()) :
    (∀ d, g.v2_image_id = .User d →
      (bake_guest (realEnv cwd B) elfs_dir g w).2.files
          (withExtension (elfs_dir ++ [f]) "uid") = some d.as_bytes ∧
      (bake_guest (realEnv cwd B) elfs_dir g w).2.files
          (withExtension (elfs_dir ++ [f]) "kid") =
        w.files (withExtension (elfs_dir ++ [f]) "kid")) ∧
    (∀ d, g.v2_image_id = .Kernel d →
      (bake_guest (realEnv cwd B) elfs_dir g w).2.files
          (withExtension (elfs_dir ++ [f]) "kid") = some d.as_bytes ∧
      (bake_guest (realEnv cwd B) elfs_dir g w).2.files
          (withExtension (elfs_dir ++ [f]) "uid") =
        w.files (withExtension (elfs_dir ++ [f]) "uid")) := by
  obtain ⟨f', b, hf', hb⟩ := bake_guest_real_ok_inv _ _ _ _ _ hok
  rw [hf] at hf'
  injection hf' with hff
  subst hff
  rw [bake_guest_real_eq _ _ _ _ _ _ _ hf hb]
  have hku : withExtension (elfs_dir ++ [f]) "kid"
      ≠ withExtension (elfs_dir ++ [f]) "uid" :=
    withExtension_ne_of_ext_ne _ _ _ _ _ _ (by decide) (by decide)
      (by decide) (by decide)
  have hki : withExtension (elfs_dir ++ [f]) "kid"
      ≠ withExtension (elfs_dir ++ [f]) "iid" :=
    withExtension_ne_of_ext_ne _ _ _ _ _ _ (by decide) (by decide)
      (by decide) (by decide)
  have hke : withExtension (elfs_dir ++ [f]) "kid"
      ≠ withExtension (elfs_dir ++ [f]) "elf" :=
    withExtension_ne_of_ext_ne _ _ _ _ _ _ (by decide) (by decide)
      (by decide) (by decide)
  have hui : withExtension (elfs_dir ++ [f]) "uid"
      ≠ withExtension (elfs_dir ++ [f]) "iid" :=
    withExtension_ne_of_ext_ne _ _ _ _ _ _ (by decide) (by decide)
      (by decide) (by decide)
  have hue : withExtension (elfs_dir ++ [f]) "uid"
      ≠ withExtension (elfs_dir ++ [f]) "elf" :=
    withExtension_ne_of_ext_ne _ _ _ _ _ _ (by decide) (by decide)
      (by decide) (by decide)
  refine ⟨fun d hv => ⟨?_, ?_⟩, fun d hv => ⟨?_, ?_⟩⟩ <;>
    by_cases hz : g.image_id = Digest.ZERO <;>
      simp [v2Path, v2Bytes, hv, upd, hz, hku, hki, hke, hui, hue,
        Ne.symm hku, Ne.symm hki, Ne.symm hke, Ne.symm hui, Ne.symm hue]

/-- Witness for C2 at a concrete kernel-variant guest. -/
theorem identifier_variant_file_witness :
    fileName exGuest.path = some "s" ∧
    (bake_guest (realEnv [] exBuilder) ["d", "elfs"] exGuest exWorld).1
      = .ok () ∧
    (∀ d, exGuest.v2_image_id = .Kernel d →
      (bake_guest (realEnv [] exBuilder) ["d", "elfs"] exGuest exWorld).2.files
          (withExtension (["d", "elfs"] ++ ["s"]) "kid") = some d.as_bytes ∧
      (bake_guest (realEnv [] exBuilder) ["d", "elfs"] exGuest exWorld).2.files
          (withExtension (["d", "elfs"] ++ ["s"]) "uid") =
        exWorld.files (withExtension (["d", "elfs"] ++ ["s"]) "uid")) :=
  ⟨rfl, rfl,
    (identifier_variant_file [] exBuilder ["d", "elfs"] exGuest exWorld "s"
      rfl rfl).2⟩

/-- C3: for every guest processed successfully by the loop body, the `.iid`
sibling file is written with exactly the legacy digest's raw bytes when that
digest differs from the all-zero sentinel `Digest::ZERO`, and is not touched
at all when the legacy digest equals the sentinel. -/
theorem legacy_digest_file (cwd : FsPath)
    (B : Package → FsPath → GuestOptions → Except BakeErr (List GuestListEntry))
    (elfs_dir : FsPath) (g : GuestListEntry) (w : World) (f : String)
    (hf : fileName g.path = some f)
    (hok : (bake_guest (realEnv cwd B) elfs_dir g w).1 = .ok ()) :
    (g.image_id ≠ Digest.ZERO →
      (bake_guest (realEnv cwd B) elfs_dir g w).2.files
          (withExtension (elfs_dir ++ [f]) "iid") = some g.image_id.as_bytes) ∧
    (g.image_id = Digest.ZERO →
      (bake_guest (realEnv cwd B) elfs_dir g w).2.files
          (withExtension (elfs_dir ++ [f]) "iid") =
        w.files (withExtension (elfs_dir ++ [f]) "iid")) := by
  obtain ⟨f', b, hf', hb⟩ := bake_guest_real_ok_inv _ _ _ _ _ hok
  rw [hf] at hf'
  injection hf' with hff
  subst hff
  rw [bake_guest_real_eq _ _ _ _ _ _ _ hf hb]
  have hiu : withExtension (elfs_dir ++ [f]) "iid"
      ≠ withExtension (elfs_dir ++ [f]) "uid" :=
    withExtension_ne_of_ext_ne _ _ _ _ _ _ (by decide) (by decide)
      (by decide) (by decide)
  have hik : withExtension (elfs_dir ++ [f]) "iid"
      ≠ withExtension (elfs_dir ++ [f]) "kid" :=
    withExtension_ne_of_ext_ne _ _ _ _ _ _ (by decide) (by decide)
      (by decide) (by decide)
  have hie : withExtension (elfs_dir ++ [f]) "iid"
      ≠ withExtension (elfs_dir ++ [f]) "elf" :=
    withExtension_ne_of_ext_ne _ _ _ _ _ _ (by decide) (by decide)
      (by decide) (by decide)
  cases hv : g.v2_image_id <;>
    constructor <;>
      intro hz <;>
        simp [v2Path, v2Bytes, hv, upd, hz, hiu, hik, hie,
          Ne.symm hiu, Ne.symm hik, Ne.symm hie]

/-- Witness for C3: a guest with non-zero legacy digest gets the `.iid` file;
a guest with the sentinel digest leaves it untouched. -/
theorem legacy_digest_file_witness :
    (exGuest.image_id ≠ Digest.ZERO ∧
      (bake_guest (realEnv [] exBuilder) ["d", "elfs"] exGuest exWorld).2.files
          (withExtension (["d", "elfs"] ++ ["s"]) "iid")
        = some exGuest.image_id.as_bytes) ∧
    (exGuestUser.image_id = Digest.ZERO ∧
      (bake_guest (realEnv [] exBuilder) ["d", "elfs"] exGuestUser exWorld).2.files
          (withExtension (["d", "elfs"] ++ ["s"]) "iid")
        = exWorld.files (withExtension (["d", "elfs"] ++ ["s"]) "iid")) :=
  ⟨⟨by decide,
    (legacy_digest_file [] exBuilder ["d", "elfs"] exGuest exWorld "s"
      rfl rfl).1 (by decide)⟩,
   ⟨rfl,
    (legacy_digest_file [] exBuilder ["d", "elfs"] exGuestUser exWorld "s"
      rfl rfl).2 rfl⟩⟩

end Bake

namespace Bake

/-- C4: for an eligible package the guest loop runs with the publish
directory `<manifest parent>/elfs` (first conjunct); for every successfully
processed guest, the `.elf` file — named after the builder-reported output
path's file name with its extension replaced by `.elf` — holds exactly the
bytes read from the builder's scratch location (second conjunct), and the
publish directory together with all its missing ancestors exists afterwards
(third conjunct). -/
theorem publish_elf_file (cwd : FsPath)
    (B : Package → FsPath → GuestOptions → Except BakeErr (List GuestListEntry))
    (docker : Bool) (feats : List String) (pkg : Package) (td : FsPath)
    (w : World) (mdir : FsPath) (gs : List GuestListEntry)
    (g : GuestListEntry) (f : String)
    (hp : parent pkg.manifest_path = some mdir)
    (hB : B pkg td (realOptions docker feats cwd) = .ok gs)
    (hf : fileName g.path = some f)
    (hok : (bake_guest (realEnv cwd B) (mdir ++ ["elfs"]) g w).1 = .ok ()) :
    bake_target (realEnv cwd B) docker feats pkg td w =
      bake_guests (realEnv cwd B) (mdir ++ ["elfs"]) gs
        { w with calls := w.calls ++ [(pkg, td, realOptions docker feats cwd)] } ∧
    (∃ b, w.files g.path = some b ∧
      (bake_guest (realEnv cwd B) (mdir ++ ["elfs"]) g w).2.files
        (withExtension ((mdir ++ ["elfs"]) ++ [f]) "elf") = some b) ∧
    (∀ q, leadsTo q (mdir ++ ["elfs"]) = true →
      (bake_guest (realEnv cwd B) (mdir ++ ["elfs"]) g w).2.dirs q = true) := by
  obtain ⟨f', b, hf', hb⟩ := bake_guest_real_ok_inv _ _ _ _ _ hok
  rw [hf] at hf'
  injection hf' with hff
  subst hff
  have heu : withExtension ((mdir ++ ["elfs"]) ++ [f]) "elf"
      ≠ withExtension ((mdir ++ ["elfs"]) ++ [f]) "uid" :=
    withExtension_ne_of_ext_ne _ _ _ _ _ _ (by decide) (by decide)
      (by decide) (by decide)
  have hek : withExtension ((mdir ++ ["elfs"]) ++ [f]) "elf"
      ≠ withExtension ((mdir ++ ["elfs"]) ++ [f]) "kid" :=
    withExtension_ne_of_ext_ne _ _ _ _ _ _ (by decide) (by decide)
      (by decide) (by decide)
  have hei : withExtension ((mdir ++ ["elfs"]) ++ [f]) "elf"
      ≠ withExtension ((mdir ++ ["elfs"]) ++ [f]) "iid" :=
    withExtension_ne_of_ext_ne _ _ _ _ _ _ (by decide) (by decide)
      (by decide) (by decide)
  simp only [List.append_assoc, List.cons_append, List.nil_append]
    at heu hek hei
  refine ⟨bake_target_real_ok_builder _ _ _ _ _ _ _ _ _ hp hB,
    ⟨b, hb, ?_⟩, fun q hq => ?_⟩
  · rw [bake_guest_real_eq _ _ _ _ _ _ _ hf hb]
    cases hv : g.v2_image_id <;>
      by_cases hz : g.image_id = Digest.ZERO <;>
        simp [v2Path, upd, hv, hz, heu, hek, hei]
  · rw [bake_guest_real_eq _ _ _ _ _ _ _ hf hb]
    simp [hq]

/-- Witness for C4 at a concrete package, builder and guest. -/
theorem publish_elf_file_witness :
    parent exPkg.manifest_path = some ["d"] ∧
    exBuilder exPkg ["t"] (realOptions false [] []) = .ok [exGuest] ∧
    fileName exGuest.path = some "s" ∧
    (bake_guest (realEnv [] exBuilder) (["d"] ++ ["elfs"]) exGuest exWorld).1
      = .ok () ∧
    (∃ b, exWorld.files exGuest.path = some b ∧
      (bake_guest (realEnv [] exBuilder) (["d"] ++ ["elfs"]) exGuest
          exWorld).2.files
        (withExtension ((["d"] ++ ["elfs"]) ++ ["s"]) "elf") = some b) :=
  ⟨rfl, rfl, rfl, rfl,
    ((publish_elf_file [] exBuilder false [] exPkg ["t"] exWorld ["d"]
      [exGuest] exGuest "s" rfl rfl rfl rfl).2).1⟩

/-- C5: every error raised while processing — a builder failure from
`build_package`, or a directory-creation, copy, or digest-file write failure
from the filesystem capabilities, all surfaced as `Except.error` — is
propagated to the caller unchanged and immediately: a failing loop body makes
the whole guest loop stop with that very error and state, with no later guest
processed, and a failing `bake_target` makes the package loop stop with that
very error and state, with no later package processed and everything already
written left in place. -/
theorem first_failure_aborts (env : Env) (docker : Bool) (feats : List String)
    (td elfs_dir : FsPath) (g : GuestListEntry) (gs : List GuestListEntry)
    (pkg : Package) (pkgs : List Package) (w w1 : World) (e : BakeErr) :
    (bake_guest env elfs_dir g w = (.err e, w1) →
      bake_guests env elfs_dir (g :: gs) w = (.err e, w1)) ∧
    (isEligible pkg = true →
      bake_target env docker feats pkg td w = (.err e, w1) →
      runPackages env docker feats td (pkg :: pkgs) w = (.err e, w1)) := by
  constructor
  · intro h
    rw [bake_guests_cons, h]
  · intro he h
    rw [runPackages_cons, if_pos he, h]

/-- Witness for C5: a copy failure (missing scratch binary) aborts the guest
loop with that error; a builder failure aborts the package loop with that
error, in both cases with further work skipped and the state kept. -/
theorem first_failure_aborts_witness :
    bake_guests (realEnv [] exBuilder) ["p"] (exGuest :: [exGuestUser])
        exEmpty =
      (.err (.ioErr "copy: source does not exist"),
        (bake_guest (realEnv [] exBuilder) ["p"] exGuest exEmpty).2) ∧
    runPackages (realEnv [] exBuilderFail) false [] ["t"] (exPkg :: [exPkg])
        exWorld =
      (.err (.builderErr "toolchain"),
        (bake_target (realEnv [] exBuilderFail) false [] exPkg ["t"]
          exWorld).2) :=
  ⟨(first_failure_aborts (realEnv [] exBuilder) false [] ["t"] ["p"] exGuest
      [exGuestUser] exPkg [] exEmpty
      (bake_guest (realEnv [] exBuilder) ["p"] exGuest exEmpty).2
      (.ioErr "copy: source does not exist")).1 rfl,
   (first_failure_aborts (realEnv [] exBuilderFail) false [] ["t"] ["p"]
      exGuest [] exPkg [exPkg] exWorld
      (bake_target (realEnv [] exBuilderFail) false [] exPkg ["t"] exWorld).2
      (.builderErr "toolchain")).2 rfl rfl⟩

/-- C6: the build options passed to the builder for an eligible package
always contain the configured feature flags, and contain the containerized
(docker) descriptor if and only if the `--docker` flag was requested; when
present its root directory is the process's current working directory, and
when the flag is absent the descriptor is absent entirely. -/
theorem docker_descriptor_iff_flag (cwd : FsPath)
    (B : Package → FsPath → GuestOptions → Except BakeErr (List GuestListEntry))
    (docker : Bool) (feats : List String) (pkg : Package) (td : FsPath)
    (w : World) (mdir : FsPath)
    (hp : parent pkg.manifest_path = some mdir) :
    (bake_target (realEnv cwd B) docker feats pkg td w).2.calls =
      w.calls ++ [(pkg, td,
        { features := feats
          use_docker :=
            if docker then some { root_dir := some cwd } else none })] := by
  rw [bake_target_real_calls _ _ _ _ _ _ _ _ hp]
  rfl

/-- Witness for C6, with and without the docker flag. -/
theorem docker_descriptor_iff_flag_witness :
    parent exPkg.manifest_path = some ["d"] ∧
    (bake_target (realEnv ["cwd"] exBuilder) true ["f1"] exPkg ["t"]
        exWorld).2.calls =
      exWorld.calls ++ [(exPkg, ["t"],
        { features := ["f1"]
          use_docker :=
            if true then some { root_dir := some ["cwd"] } else none })] ∧
    (bake_target (realEnv ["cwd"] exBuilder) false ["f1"] exPkg ["t"]
        exWorld).2.calls =
      exWorld.calls ++ [(exPkg, ["t"],
        { features := ["f1"]
          use_docker :=
            if false then some { root_dir := some ["cwd"] } else none })] :=
  ⟨rfl,
   docker_descriptor_iff_flag ["cwd"] exBuilder true ["f1"] exPkg ["t"]
     exWorld ["d"] rfl,
   docker_descriptor_iff_flag ["cwd"] exBuilder false ["f1"] exPkg ["t"]
     exWorld ["d"] rfl⟩

end Bake

namespace Bake

theorem bake_guests_real_no_panic (cwd : FsPath)
    (B : Package → FsPath → GuestOptions → Except BakeErr (List GuestListEntry))
    (elfs_dir : FsPath) (gs : List GuestListEntry) :
    ∀ w : World, (∀ g ∈ gs, g.path ≠ []) →
    (bake_guests (realEnv cwd B) elfs_dir gs w).1 ≠ .panic := by
  induction gs with
  | nil => intro w _; simp [bake_guests]
  | cons g gs ih =>
    intro w hall
    rw [bake_guests_cons]
    obtain ⟨f, hf⟩ : ∃ f, fileName g.path = some f := by
      have hne : g.path ≠ [] := hall g (by simp)
      have : (g.path.getLast?).isSome := List.getLast?_isSome.mpr hne
      exact Option.isSome_iff_exists.mp this
    cases hb : w.files g.path with
    | none =>
      rw [bake_guest_real_copy_fail _ _ _ _ _ _ hf hb]
      simp
    | some b =>
      rw [bake_guest_real_eq _ _ _ _ _ _ _ hf hb]
      exact ih _ (fun g' hg' => hall g' (by simp [hg']))

theorem bake_target_real_no_panic (cwd : FsPath)
    (B : Package → FsPath → GuestOptions → Except BakeErr (List GuestListEntry))
    (docker : Bool) (feats : List String) (pkg : Package) (td : FsPath)
    (w : World) (mdir : FsPath)
    (hp : parent pkg.manifest_path = some mdir)
    (hall : ∀ g ∈ pkgGuests B docker feats cwd td pkg, g.path ≠ []) :
    (bake_target (realEnv cwd B) docker feats pkg td w).1 ≠ .panic := by
  cases hB : B pkg td (realOptions docker feats cwd) with
  | error e =>
    rw [bake_target_real_err_builder _ _ _ _ _ _ _ _ _ hp hB]
    simp
  | ok gs =>
    rw [bake_target_real_ok_builder _ _ _ _ _ _ _ _ _ hp hB]
    apply bake_guests_real_no_panic
    have hgs : pkgGuests B docker feats cwd td pkg = gs := by
      rw [pkgGuests, hB]
    rw [hgs] at hall
    exact hall

end Bake

namespace Bake

/-- C7: the file writes of a run use whole-file replace semantics — after a
write the file holds exactly the written bytes, whatever was there before,
never an append (first conjunct) — and therefore running the command twice
with unchanged inputs (same packages, same builder outputs, scratch
locations separate from the published files) succeeds again and leaves every
file byte-identical to the first run's result (second and third
conjuncts). -/
theorem run_twice_idempotent (cwd : FsPath)
    (B : Package → FsPath → GuestOptions → Except BakeErr (List GuestListEntry))
    (docker : Bool) (feats : List String) (included : List Package)
    (tdir : FsPath) (w : World)
    (hdisj : ∀ p ∈ runSourcePaths B docker feats cwd (tdir ++ ["guest"])
        included,
      p ∉ runWritePaths B docker feats cwd (tdir ++ ["guest"]) included)
    (hok : (run (realEnv cwd B) docker feats included tdir w).1 = .ok ()) :
    (∀ (p : FsPath) (b : Bytes) (w' : World),
      ((realEnv cwd B).write p b w').2.files p = some b) ∧
    (run (realEnv cwd B) docker feats included tdir
        ((run (realEnv cwd B) docker feats included tdir w).2)).1 = .ok () ∧
    ∀ q, (run (realEnv cwd B) docker feats included tdir
        ((run (realEnv cwd B) docker feats included tdir w).2)).2.files q =
      ((run (realEnv cwd B) docker feats included tdir w).2).files q := by
  have hagree : ∀ p ∈ runSourcePaths B docker feats cwd (tdir ++ ["guest"])
      included,
      ((run (realEnv cwd B) docker feats included tdir w).2).files p =
        w.files p := by
    intro p hp
    exact runPackages_real_frame cwd B docker feats (tdir ++ ["guest"])
      included p w (hdisj p hp)
  obtain ⟨hokX, hq⟩ := runPackages_real_sim cwd B docker feats
    (tdir ++ ["guest"]) included w
    ((run (realEnv cwd B) docker feats included tdir w).2) hdisj hagree hok
  refine ⟨fun p b w' => by simp [realEnv, World.setFile], hokX, fun q => ?_⟩
  by_cases hqw : q ∈ runWritePaths B docker feats cwd (tdir ++ ["guest"])
    included
  · exact (hq q).1 hqw
  · exact (hq q).2 hqw

/-- Witness for C7: a concrete two-package run, repeated. -/
theorem run_twice_idempotent_witness :
    (∀ p ∈ runSourcePaths exBuilder false [] [] (([] : FsPath) ++ ["guest"])
        [exPkg, exPkgNo],
      p ∉ runWritePaths exBuilder false [] [] (([] : FsPath) ++ ["guest"])
        [exPkg, exPkgNo]) ∧
    (run (realEnv [] exBuilder) false [] [exPkg, exPkgNo] [] exWorld).1
      = .ok () ∧
    ((run (realEnv [] exBuilder) false [] [exPkg, exPkgNo] []
        ((run (realEnv [] exBuilder) false [] [exPkg, exPkgNo] []
          exWorld).2)).1 = .ok () ∧
     ∀ q, (run (realEnv [] exBuilder) false [] [exPkg, exPkgNo] []
        ((run (realEnv [] exBuilder) false [] [exPkg, exPkgNo] []
          exWorld).2)).2.files q =
       ((run (realEnv [] exBuilder) false [] [exPkg, exPkgNo] []
          exWorld).2).files q) :=
  ⟨by decide, rfl,
    (run_twice_idempotent [] exBuilder false [] [exPkg, exPkgNo] [] exWorld
      (by decide) rfl).2⟩

/-- C9: publishing unwraps the manifest path's parent and the reported
output path's file name.  An eligible package whose manifest path has no
parent makes `bake_target` panic with the state untouched (first conjunct);
a guest whose output path has no file-name component makes the loop body
panic with the state untouched (second conjunct); when the manifest parent
exists and every reported guest path is non-empty, the unwraps cannot
panic (third conjunct). -/
theorem unwrap_panics (env : Env) (docker : Bool) (feats : List String)
    (pkg pkg2 : Package) (td elfs_dir mdir cwd : FsPath) (g : GuestListEntry)
    (w : World)
    (B : Package → FsPath → GuestOptions →
      Except BakeErr (List GuestListEntry)) :
    (parent pkg.manifest_path = none →
      (docker = false ∨ ∃ c, env.current_dir = .ok c) →
      bake_target env docker feats pkg td w = (.panic, w)) ∧
    (fileName g.path = none → bake_guest env elfs_dir g w = (.panic, w)) ∧
    (parent pkg2.manifest_path = some mdir →
      (∀ g' ∈ pkgGuests B docker feats cwd td pkg2, g'.path ≠ []) →
      (bake_target (realEnv cwd B) docker feats pkg2 td w).1 ≠ .panic) := by
  refine ⟨fun hp hcd =>
      bake_target_panic_of_no_parent env docker feats pkg td w hp hcd,
    fun hf => ?_,
    fun hp hall =>
      bake_target_real_no_panic cwd B docker feats pkg2 td w mdir hp hall⟩
  simp [bake_guest, hf]

/-- Witness for C9: a manifest path without parent panics, an output path
without file name panics, and the well-formed example cannot panic. -/
theorem unwrap_panics_witness :
    (parent (Package.mk "x" [] (.obj [("risc0", .null)])
        [⟨"t", ["bin"]⟩]).manifest_path = none ∧
      bake_target (realEnv [] exBuilder) false []
          (Package.mk "x" [] (.obj [("risc0", .null)]) [⟨"t", ["bin"]⟩])
          ["t"] exWorld = (.panic, exWorld)) ∧
    (fileName (GuestListEntry.mk [] ⟨[1]⟩ (.Kernel ⟨[2]⟩)).path = none ∧
      bake_guest (realEnv [] exBuilder) ["e"]
          (GuestListEntry.mk [] ⟨[1]⟩ (.Kernel ⟨[2]⟩)) exWorld =
        (.panic, exWorld)) ∧
    (bake_target (realEnv [] exBuilder) false [] exPkg ["t"] exWorld).1
      ≠ .panic :=
  ⟨⟨rfl,
    (unwrap_panics (realEnv [] exBuilder) false []
      (Package.mk "x" [] (.obj [("risc0", .null)]) [⟨"t", ["bin"]⟩]) exPkg
      ["t"] ["e"] ["d"] [] (GuestListEntry.mk [] ⟨[1]⟩ (.Kernel ⟨[2]⟩))
      exWorld exBuilder).1 rfl (Or.inl rfl)⟩,
   ⟨rfl,
    (unwrap_panics (realEnv [] exBuilder) false []
      (Package.mk "x" [] (.obj [("risc0", .null)]) [⟨"t", ["bin"]⟩]) exPkg
      ["t"] ["e"] ["d"] [] (GuestListEntry.mk [] ⟨[1]⟩ (.Kernel ⟨[2]⟩))
      exWorld exBuilder).2.1 rfl⟩,
   (unwrap_panics (realEnv [] exBuilder) false []
      (Package.mk "x" [] (.obj [("risc0", .null)]) [⟨"t", ["bin"]⟩]) exPkg
      ["t"] ["e"] ["d"] [] (GuestListEntry.mk [] ⟨[1]⟩ (.Kernel ⟨[2]⟩))
      exWorld exBuilder).2.2 rfl (by decide)⟩

end Bake

/-- Witness for C8 at concrete bundled bytes. -/
theorem v1compat_buffers_witness :
    V1Compat.exports true [1] [2] = none ∧
    (V1Compat.exports false [1] [2] = some ([1], [2]) ↔ false = false) :=
  v1compat_buffers false [1] [2]
